import Mathlib

/-!
Verification development for the rule-evaluation core of the Informe_PT
document-generation system.  The Python modules `modules/dsl_allowlist.py`,
`modules/rule_engine.py`, `modules/contract_validator.py` and
`modules/context_builder.py` are shallowly embedded below: Python runtime
values become the inductive type `PyVal`, raising an exception becomes the
`Except String` monad, and Python `Decimal` arithmetic is modelled by exact
rationals.  Python `date` objects and binary floats lie outside the value
model; none of the verified properties involve them.
-/

/-- ASCII lower-casing of one character (the embedding of Python
`str.lower` on the ASCII operator names the DSL uses). -/
def lowerChar (c : Char) : Char :=
  if 65 ≤ c.toNat && c.toNat ≤ 90 then Char.ofNat (c.toNat + 32) else c

/-- Python `s.lower()` (ASCII model). -/
def strLower (s : String) : String := String.mk (s.data.map lowerChar)

/-- Split a char list on a nonempty separator run; the `Nat` counter skips
the remaining characters of a just-matched separator. -/
def chSplitGo (sep : List Char) : Nat → List Char → List (List Char)
  | _, [] => [[]]
  | n + 1, _ :: t => chSplitGo sep n t
  | 0, c :: t =>
      if !sep.isEmpty && sep.isPrefixOf (c :: t) then
        [] :: chSplitGo sep (sep.length - 1) t
      else
        match chSplitGo sep 0 t with
        | [] => [[c]]
        | h :: rest => (c :: h) :: rest

/-- Python `s.split(sep)` for a nonempty separator. -/
def strSplit (s sep : String) : List String :=
  (chSplitGo sep.data 0 s.data).map String.mk

/-- Python `s.strip()` (ASCII-whitespace model). -/
def strTrim (s : String) : String :=
  String.mk (((s.data.dropWhile Char.isWhitespace).reverse.dropWhile Char.isWhitespace).reverse)

/-- Python `s.startswith(p)`. -/
def strStarts (s p : String) : Bool := p.data.isPrefixOf s.data

/-- Python `s.endswith(p)`. -/
def strEnds (s p : String) : Bool := p.data.isSuffixOf s.data

/-- Code-point lexicographic `<` on char lists (Python string ordering). -/
def chLt : List Char → List Char → Bool
  | [], [] => false
  | [], _ :: _ => true
  | _ :: _, [] => false
  | a :: as, b :: bs =>
      if a.toNat < b.toNat then true
      else if b.toNat < a.toNat then false
      else chLt as bs

/-- Python `s < t` on strings. -/
def strLtB (s t : String) : Bool := chLt s.data t.data

/-- Model of the Python runtime values the rule engine manipulates:
`None`, booleans, integers, strings, lists and string-keyed dicts
(a dict is its ordered association list of entries, keys unique). -/
inductive PyVal where
  | none
  | bool (b : Bool)
  | int (n : Int)
  | str (s : String)
  | list (xs : List PyVal)
  | dict (kvs : List (String × PyVal))

/-- Lookup in an ordered association list (Python dict read). -/
def alLookup {α : Type} (d : List (String × α)) (k : String) : Option α :=
  (d.find? (fun p => p.1 == k)).map Prod.snd

/-- Write into an ordered association list (Python `d[k] = v`): replace in
place when the key is present (keys are unique), append otherwise. -/
def alInsert {α : Type} : List (String × α) → String → α → List (String × α)
  | [], k, v => [(k, v)]
  | (k0, v0) :: rest, k, v =>
      if k0 == k then (k, v) :: rest else (k0, v0) :: alInsert rest k v

/-- `d.get(k)` on a dict: the value of the first entry with key `k`. -/
def pyLookup (kvs : List (String × PyVal)) (k : String) : Option PyVal :=
  alLookup kvs k

/-- `v is None`. -/
def PyVal.isNone : PyVal → Bool
  | .none => true
  | _ => false

/-- `isinstance(v, str)`. -/
def PyVal.isStr : PyVal → Bool
  | .str _ => true
  | _ => false

/-- Python truthiness of a value (`bool(v)`). -/
def pyTruthy : PyVal → Bool
  | .none => false
  | .bool b => b
  | .int n => n != 0
  | .str s => s != ""
  | .list xs => !xs.isEmpty
  | .dict kvs => !kvs.isEmpty

mutual

/-- Python `==` on the modelled values.  Booleans compare equal to the
integers 0/1 (Python bools are ints); dicts compare by key set and value
equality; everything else is structural. -/
def pyEq : PyVal → PyVal → Bool
  | .none, .none => true
  | .bool b, .bool c => b == c
  | .bool b, .int n => (if b then (1 : Int) else 0) == n
  | .int n, .bool b => n == (if b then (1 : Int) else 0)
  | .int m, .int n => m == n
  | .str s, .str t => s == t
  | .list xs, .list ys => pyEqList xs ys
  | .dict xs, .dict ys => xs.length == ys.length && pyEqDictSub xs ys
  | _, _ => false

/-- Elementwise equality of Python lists. -/
def pyEqList : List PyVal → List PyVal → Bool
  | [], [] => true
  | x :: xs, y :: ys => pyEq x y && pyEqList xs ys
  | _, _ => false

/-- Every entry of the first dict is present with an equal value in the
second (with equal lengths and unique keys this is dict equality). -/
def pyEqDictSub : List (String × PyVal) → List (String × PyVal) → Bool
  | [], _ => true
  | (k, v) :: rest, ys =>
      (match (ys.find? (fun p => p.1 == k)).map Prod.snd with
       | some w => pyEq v w
       | none => false) && pyEqDictSub rest ys

end

mutual

/-- Python `repr` of a value (strings quoted), as used inside
`str` of containers. -/
def pyRepr : PyVal → String
  | .none => "None"
  | .bool true => "True"
  | .bool false => "False"
  | .int n => toString n
  | .str s => "\x27" ++ s ++ "\x27"
  | .list xs => "[" ++ pyReprList xs ++ "]"
  | .dict kvs => "\x7b" ++ pyReprDict kvs ++ "\x7d"

/-- Comma-joined reprs of list elements. -/
def pyReprList : List PyVal → String
  | [] => ""
  | [x] => pyRepr x
  | x :: rest => pyRepr x ++ ", " ++ pyReprList rest

/-- Comma-joined `key: value` reprs of dict entries. -/
def pyReprDict : List (String × PyVal) → String
  | [] => ""
  | [(k, v)] => "\x27" ++ k ++ "\x27: " ++ pyRepr v
  | (k, v) :: rest => "\x27" ++ k ++ "\x27: " ++ pyRepr v ++ ", " ++ pyReprDict rest

end

/-- Python `str(v)`: like `repr` except that a top-level string is
returned unquoted. -/
def pyStr : PyVal → String
  | .str s => s
  | v => pyRepr v

mutual

/-- Python ordering comparison (`<`, `>`, ...): defined for numbers
(bools count as 0/1), strings (code-point lexicographic) and lists;
any other combination raises `TypeError`. -/
def pyCompare : PyVal → PyVal → Except String Ordering
  | .int m, .int n => .ok (compare m n)
  | .int m, .bool b => .ok (compare m (if b then 1 else 0))
  | .bool b, .int n => .ok (compare (if b then (1 : Int) else 0) n)
  | .bool a, .bool b => .ok (compare (if a then (1 : Int) else 0) (if b then 1 else 0))
  | .str s, .str t => .ok (if strLtB s t then .lt else if strLtB t s then .gt else .eq)
  | .list xs, .list ys => pyCompareList xs ys
  | _, _ => .error "TypeError: unorderable types"

/-- Python list ordering: skip `==`-equal heads, order the first differing
pair, fall back to length. -/
def pyCompareList : List PyVal → List PyVal → Except String Ordering
  | [], [] => .ok .eq
  | [], _ :: _ => .ok .lt
  | _ :: _, [] => .ok .gt
  | x :: xs, y :: ys =>
      if pyEq x y then pyCompareList xs ys else pyCompare x y

end

/-- Whether `needle` occurs as a contiguous run of `hay`
(Python `needle in hay` on strings, via char lists). -/
def subOf (needle : List Char) : List Char → Bool
  | [] => needle.isPrefixOf []
  | c :: t => needle.isPrefixOf (c :: t) || subOf needle t

/-- Python `needle in hay` for strings. -/
def strIncl (hay needle : String) : Bool := subOf needle.data hay.data

/-- Digits of an ASCII-digit string as a number (used after an
`isdigit` guard, so total). -/
def digitsToNat (cs : List Char) : Nat :=
  cs.foldl (fun a c => a * 10 + (c.toNat - 48)) 0

/-- Python `s.isdigit()` restricted to the ASCII digits the embedding
models: nonempty and all digits. -/
def strIsDigits (s : String) : Bool :=
  s != "" && s.data.all Char.isDigit

/-- Python `int(s)` on a stripped string: optional sign followed by
at least one digit; anything else raises (modelled as `none`). -/
def pyParseInt (s : String) : Option Int :=
  match s.data with
  | '-' :: rest =>
      if !rest.isEmpty && rest.all Char.isDigit then some (-(digitsToNat rest : Int)) else none
  | '+' :: rest =>
      if !rest.isEmpty && rest.all Char.isDigit then some (digitsToNat rest : Int) else none
  | ds =>
      if !ds.isEmpty && ds.all Char.isDigit then some (digitsToNat ds : Int) else none

/-- `modules/dsl_allowlist.py` `ALLOWED_OPERATORS`: the fixed operator
allowlist (a frozenset in the source; membership is all that is used). -/
def ALLOWED_OPERATORS : List String :=
  ["and", "or", "not",
   "equals", "not_equals", "gt", "gte", "lt", "lte",
   "in", "not_in",
   "exists", "not_exists", "is_empty", "not_empty",
   "contains", "not_contains", "starts_with", "ends_with"]

/-- `modules/dsl_allowlist.py` `MAX_NESTING_DEPTH`. -/
def MAX_NESTING_DEPTH : Nat := 3

/-- `modules/dsl_allowlist.py` `is_operator_allowed`. -/
def is_operator_allowed (op : String) : Bool :=
  ALLOWED_OPERATORS.contains op

/-- A condition dict of the DSL, by the keys `evaluate_condition` reads:
`operator` (missing key modelled as `""`, the source's `.get` default),
`field` (default `""`), `value` (default `None`), `values` (default `[]`),
`condition` (`none` models a missing key or the empty dict — the two are
indistinguishable to both evaluator and validator) and `conditions`
(default `[]`). -/
inductive Cond where
  | mk (operator : String) (field : String) (value : PyVal) (values : List PyVal)
       (inner : Option Cond) (conditions : List Cond)

/-- The `operator` entry of a condition dict (after the `.get` default). -/
def Cond.operator : Cond → String
  | .mk op _ _ _ _ _ => op

/-- The `field` entry of a condition dict (after the `.get` default). -/
def Cond.field : Cond → String
  | .mk _ fld _ _ _ _ => fld

/-- The condition dict with no keys at all (`{}`). -/
def emptyCond : Cond := .mk "" "" .none [] none []

/-- Helper of `get_value`: traverse the remaining dot-path parts.
The source's early `return None` on a missing key, a `None` value, an
out-of-range index or a non-traversable type are the `.none` branches. -/
def getValueGo : List String → PyVal → PyVal
  | [], cur => cur
  | p :: rest, cur =>
      match cur with
      | .dict kvs =>
          match pyLookup kvs p with
          | some v => if v.isNone then .none else getValueGo rest v
          | Option.none => .none
      | .list xs =>
          if strIsDigits p then
            match xs[digitsToNat p.data]? with
            | some v => if v.isNone then .none else getValueGo rest v
            | Option.none => .none
          else .none
      | _ => .none

/-- `modules/dsl_allowlist.py` `get_value`: dot-notation lookup into
nested data; never raises. -/
def get_value (data : PyVal) (field : String) : PyVal :=
  if field = "" then .none
  else getValueGo (strSplit field ".") data

/-- The message of the max-depth `ValueError`. -/
def depthErrMsg : String := "Max nesting depth (3) exceeded"

/-- The message of the disallowed-operator `ValueError`. -/
def opErrMsg (op : String) : String :=
  "Operator \x27" ++ op ++ "\x27 is not in the allowlist"

mutual

/-- `modules/dsl_allowlist.py` `evaluate_condition`: evaluate a condition
dict against data; raising `ValueError`/`TypeError` is the `.error` case. -/
def evaluate_condition : Cond → PyVal → Nat → Except String Bool
  | .mk rawOp fld v vs inner conds, data, depth =>
    if depth > MAX_NESTING_DEPTH then .error depthErrMsg
    else
      let op := strLower rawOp
      if !is_operator_allowed op then .error (opErrMsg op)
      else if op = "and" then evalAllConds conds data (depth + 1)
      else if op = "or" then evalAnyConds conds data (depth + 1)
      else if op = "not" then
        match inner with
        | some ic => do
            let b ← evaluate_condition ic data (depth + 1)
            pure (!b)
        | none =>
            -- the source recurses into the empty dict `{}` here; that call
            -- checks the depth guard and then rejects operator "" — inlined:
            if depth + 1 > MAX_NESTING_DEPTH then .error depthErrMsg
            else .error (opErrMsg "")
      else
        let field_value := get_value data fld
        let expected_value := v
        if op = "equals" then .ok (pyEq field_value expected_value)
        else if op = "not_equals" then .ok (!pyEq field_value expected_value)
        else if op = "gt" then
          if field_value.isNone then .ok false
          else do
            let o ← pyCompare field_value expected_value
            pure (o == .gt)
        else if op = "gte" then
          if field_value.isNone then .ok false
          else do
            let o ← pyCompare field_value expected_value
            pure (o == .gt || o == .eq)
        else if op = "lt" then
          if field_value.isNone then .ok false
          else do
            let o ← pyCompare field_value expected_value
            pure (o == .lt)
        else if op = "lte" then
          if field_value.isNone then .ok false
          else do
            let o ← pyCompare field_value expected_value
            pure (o == .lt || o == .eq)
        else if op = "in" then .ok (vs.any (fun x => pyEq field_value x))
        else if op = "not_in" then .ok (!vs.any (fun x => pyEq field_value x))
        else if op = "exists" then .ok (!field_value.isNone)
        else if op = "not_exists" then .ok field_value.isNone
        else if op = "is_empty" then
          match field_value with
          | .none => .ok true
          | .str s => .ok (s == "")
          | .list xs => .ok xs.isEmpty
          | .dict kvs => .ok kvs.isEmpty
          | _ => .ok false
        else if op = "not_empty" then
          match field_value with
          | .none => .ok false
          | .str s => .ok (s != "")
          | .list xs => .ok (!xs.isEmpty)
          | .dict kvs => .ok (!kvs.isEmpty)
          | _ => .ok true
        else if op = "contains" then
          match field_value with
          | .str s => .ok (strIncl s (pyStr expected_value))
          | _ => .ok false
        else if op = "not_contains" then
          match field_value with
          | .str s => .ok (!strIncl s (pyStr expected_value))
          | _ => .ok true
        else if op = "starts_with" then
          match field_value with
          | .str s => .ok (strStarts s (pyStr expected_value))
          | _ => .ok false
        else if op = "ends_with" then
          match field_value with
          | .str s => .ok (strEnds s (pyStr expected_value))
          | _ => .ok false
        else .error ("Unknown operator: " ++ op)

/-- `all(evaluate_condition(c, data, depth) for c in conds)`: stop at the
first false child, propagate a raised error. -/
def evalAllConds : List Cond → PyVal → Nat → Except String Bool
  | [], _, _ => .ok true
  | c :: rest, data, depth => do
      let b ← evaluate_condition c data depth
      if b then evalAllConds rest data depth else pure false

/-- `any(evaluate_condition(c, data, depth) for c in conds)`: stop at the
first true child, propagate a raised error. -/
def evalAnyConds : List Cond → PyVal → Nat → Except String Bool
  | [], _, _ => .ok false
  | c :: rest, data, depth => do
      let b ← evaluate_condition c data depth
      if b then pure true else evalAnyConds rest data depth

end

mutual

/-- `modules/dsl_allowlist.py` `validate_rule_depth`: compute the maximum
depth of a condition tree (a plain int, no exception path). -/
def validate_rule_depth : Cond → Nat → Nat
  | .mk rawOp _ _ _ inner conds, depth =>
    if depth > MAX_NESTING_DEPTH then depth
    else
      let op := strLower rawOp
      if op == "and" || op == "or" then
        match conds with
        | [] => depth
        | c :: rest => vrdMax (c :: rest) (depth + 1)
      else if op == "not" then
        match inner with
        | some ic => validate_rule_depth ic (depth + 1)
        | none => depth
      else depth

/-- `max(validate_rule_depth(c, depth) for c in conds)` over a nonempty
list. -/
def vrdMax : List Cond → Nat → Nat
  | [], _ => 0
  | [c], depth => validate_rule_depth c depth
  | c :: rest, depth => max (validate_rule_depth c depth) (vrdMax rest depth)

end

/-- The `action` dict of a rule, by the keys the engine reads
(each with its `.get` default). -/
structure RuleAction where
  type : String
  text_key : String
  table_key : String
  includes : List String
deriving DecidableEq

/-- The default action dict (`rule.get("action", {})`). -/
def emptyAction : RuleAction := ⟨"", "", "", []⟩

/-- A rule definition, by the keys `_evaluate_rule` reads.  `rule_id` and
`name` keep their missing/present distinction (`none` = key absent);
a missing or empty `condition` dict is `emptyCond`; `for_each` is the raw
`.get` result (`none` = absent, Python `None`). -/
structure Rule where
  rule_id : Option String
  name : Option String
  condition : Cond
  action : RuleAction
  for_each : Option String
  source_block_ids : List String

/-- A decision: display name (`none` = key absent) and ordered rule ids. -/
structure Decision where
  name : Option String
  rules : List String

/-- `modules/rule_engine.py` `RuleHit`. -/
structure RuleHit where
  rule_id : String
  rule_name : String
  condition_met : Bool
  action_type : String
  affected_elements : List String
  source_block_ids : List String
deriving DecidableEq

/-- `modules/rule_engine.py` `EvaluationTrace` (outcome field unused by
`evaluate_all_rules` and omitted). -/
structure EvaluationTrace where
  decision_id : String
  decision_name : String
  rule_hits : List RuleHit
deriving DecidableEq

/-- The configuration a `RuleEngine` instance holds: rules and decisions
by id, and the text-block/table definitions reduced to the only key the
engine reads from them (`condition`, `none` = key absent). -/
structure RuleEngine where
  rules : List (String × Rule)
  decisions : List (String × Decision)
  texts : List (String × Option String)
  tables : List (String × Option String)

/-- The dict-only dot-path walk of `_evaluate_simple_condition`: a non-dict
midway sets `actual = None` and breaks (the fold absorbs in `.none`). -/
def simpleResolve (fld : String) (data : PyVal) : PyVal :=
  (strSplit fld ".").foldl
    (fun acc p =>
      match acc with
      | .dict kvs => (pyLookup kvs p).getD .none
      | _ => .none)
    data

/-- `modules/rule_engine.py` `RuleEngine._evaluate_simple_condition`:
evaluate a `"field == literal"` string; `"==" in s` is `s.splitOn "=="`
having a second part; on parse failure default to visible (`true`). -/
def _evaluate_simple_condition (condition_str : String) (data : PyVal) : Bool :=
  match strSplit condition_str "==" with
  | p0 :: p1 :: _ =>
      let fld := strTrim p0
      let expected := strTrim p1
      let actual := simpleResolve fld data
      (match pyParseInt expected with
       | some n => pyEq actual (.int n)
       | none =>
          if strLower expected = "true" then
            match actual with | .bool true => true | _ => false
          else if strLower expected = "false" then
            match actual with | .bool false => true | _ => false
          else pyStr actual == expected)
  | _ => true

/-- Python iteration over a value (`for item in v`): lists yield elements,
strings their characters, dicts their keys; anything else raises. -/
def pyIter : PyVal → Except String (List PyVal)
  | .list xs => .ok xs
  | .str s => .ok (s.data.map (fun ch => .str (String.mk [ch])))
  | .dict kvs => .ok (kvs.map (fun p => .str p.1))
  | _ => .error "TypeError: object is not iterable"

/-- The per-item context of a `for_each` rule:
`{**data, "servicio": item, "item": item}`. -/
def mergeItem (data : List (String × PyVal)) (item : PyVal) : List (String × PyVal) :=
  alInsert (alInsert data "servicio" item) "item" item

/-- The `for_each` loop of `_evaluate_rule`: stop at the first item whose
condition evaluates to true; an evaluation error counts as non-matching
and iteration continues. -/
def forEachLoop (cond : Cond) (data : List (String × PyVal)) : List PyVal → Bool
  | [] => false
  | it :: rest =>
      match evaluate_condition cond (.dict (mergeItem data it)) 0 with
      | .ok true => true
      | _ => forEachLoop cond data rest

/-- `modules/rule_engine.py` `RuleEngine._evaluate_rule`.  The non-iterable
`for_each` target is the one uncaught exception path. -/
def _evaluate_rule (rule : Rule) (data : List (String × PyVal)) : Except String RuleHit :=
  let rid := rule.rule_id.getD "unknown"
  let rname := rule.name.getD rid
  let mkHit := fun (met : Bool) =>
    RuleHit.mk rid rname met rule.action.type rule.action.includes rule.source_block_ids
  let direct : Except String RuleHit :=
    match evaluate_condition rule.condition (.dict data) 0 with
    | .ok b => .ok (mkHit b)
    | .error _ => .ok (mkHit false)
  match rule.for_each with
  | some f =>
      if f == "" then direct
      else
        match pyLookup data f with
        | some v => do
            let items ← pyIter v
            pure (mkHit (forEachLoop rule.condition data items))
        | none => pure (mkHit (forEachLoop rule.condition data []))
  | none => direct

/-- Visibility-map update performed when a rule's condition is met. -/
def applyAction (action : RuleAction) (vis : List (String × Bool)) : List (String × Bool) :=
  if action.type == "include_text" then alInsert vis ("text:" ++ action.text_key) true
  else if action.type == "include_table" then alInsert vis ("table:" ++ action.table_key) true
  else if action.type == "include_block" then
    action.includes.foldl (fun v elem => alInsert v ("element:" ++ elem) true) vis
  else vis

/-- The inner rule loop of `evaluate_all_rules`: unknown rule ids are
skipped; each evaluated rule appends a hit and, when met, applies its
action to the visibility map. -/
def processRules (rules : List (String × Rule)) (data : List (String × PyVal)) :
    List String → List (String × Bool) → List RuleHit →
    Except String (List (String × Bool) × List RuleHit)
  | [], vis, hits => .ok (vis, hits)
  | rid :: rest, vis, hits =>
      match alLookup rules rid with
      | none => processRules rules data rest vis hits
      | some rule => do
          let hit ← _evaluate_rule rule data
          let vis' := if hit.condition_met then applyAction rule.action vis else vis
          processRules rules data rest vis' (hits ++ [hit])

/-- The decision loop of `evaluate_all_rules`: one trace per decision, in
declared order. -/
def processDecisions (rules : List (String × Rule)) (data : List (String × PyVal)) :
    List (String × Decision) → List (String × Bool) → List EvaluationTrace →
    Except String (List (String × Bool) × List EvaluationTrace)
  | [], vis, traces => .ok (vis, traces)
  | (did, dec) :: rest, vis, traces => do
      let (vis', hits) ← processRules rules data dec.rules vis []
      let trace := EvaluationTrace.mk did (dec.name.getD did) hits
      processDecisions rules data rest vis' (traces ++ [trace])

/-- One pass of `_update_conditional_visibility` over text or table
definitions: a truthy (nonempty) condition string overwrites the
`tag`-prefixed visibility key with the simple evaluator's result. -/
def condPass (tag : String) (defs : List (String × Option String))
    (data : List (String × PyVal)) (vis : List (String × Bool)) : List (String × Bool) :=
  defs.foldl
    (fun v kv =>
      match kv.2 with
      | some s =>
          if s == "" then v
          else alInsert v (tag ++ kv.1) (_evaluate_simple_condition s (.dict data))
      | none => v)
    vis

/-- `modules/rule_engine.py` `RuleEngine._update_conditional_visibility`:
texts first, then tables. -/
def _update_conditional_visibility (eng : RuleEngine) (vis : List (String × Bool))
    (data : List (String × PyVal)) : List (String × Bool) :=
  condPass "table:" eng.tables data (condPass "text:" eng.texts data vis)

/-- `modules/rule_engine.py` `RuleEngine.evaluate_all_rules`. -/
def evaluate_all_rules (eng : RuleEngine) (data : List (String × PyVal)) :
    Except String (List (String × Bool) × List EvaluationTrace) := do
  let (vis, traces) ← processDecisions eng.rules data eng.decisions [] []
  pure (_update_conditional_visibility eng vis data, traces)

/-- `modules/contract_validator.py` `ValidationResult` (its three lists;
`is_valid` is "zero errors"). -/
structure ValidationResult where
  errors : List String
  warnings : List String
  info : List String
deriving DecidableEq

/-- `ValidationResult.is_valid`. -/
def ValidationResult.is_valid (r : ValidationResult) : Bool :=
  r.errors.length == 0

/-- One row of the compliance check (`family` is `"local"` or `"mast"`):
the compliance status is `"no"` or `"parcial"` while the paired comment
field is falsy. -/
def complianceRowBad (data : List (String × PyVal)) (family : String) (i : Nat) : Bool :=
  let cumplido_value := (alLookup data ("cumplido_" ++ family ++ "_" ++ toString i)).getD .none
  let texto_value := (alLookup data ("texto_cumplido_" ++ family ++ "_" ++ toString i)).getD .none
  (pyEq cumplido_value (.str "no") || pyEq cumplido_value (.str "parcial"))
    && !pyTruthy texto_value

/-- The error message one bad compliance row contributes, `none` when the
row passes.  Labels come from `fields_def.get(field, \x7b\x7d).get("label", field)`. -/
def complianceRowError (data : List (String × PyVal))
    (fields_def : List (String × List (String × PyVal)))
    (family : String) (i : Nat) : Option String :=
  let cumplido_field := "cumplido_" ++ family ++ "_" ++ toString i
  let cumplido_value := (alLookup data cumplido_field).getD .none
  if complianceRowBad data family i then
    let fdef := (alLookup fields_def cumplido_field).getD []
    let label :=
      match pyLookup fdef "label" with
      | some lv => pyStr lv
      | none => cumplido_field
    some ("Comment required for \x27" ++ label ++ "\x27 when compliance is \x27"
          ++ pyStr cumplido_value ++ "\x27")
  else none

/-- `modules/contract_validator.py` `validate_compliance_comments`:
local family rows 1..14 always, master family rows 1..17 only when
`data.get("master_file") == 1`; errors in row order, no warnings/info. -/
def validate_compliance_comments (data : List (String × PyVal))
    (fields_def : List (String × List (String × PyVal))) : ValidationResult :=
  let localErrs := (List.range' 1 14).filterMap (complianceRowError data fields_def "local")
  let mastErrs :=
    if pyEq ((alLookup data "master_file").getD .none) (.int 1) then
      (List.range' 1 17).filterMap (complianceRowError data fields_def "mast")
    else []
  ValidationResult.mk (localErrs ++ mastErrs) [] []

/-- A value seen by `calculate_derived_fields`' lookup helper: either a raw
input value or an already-computed derived number (Python `int`/`Decimal`,
modelled as an exact rational). -/
inductive DVal where
  | py (v : PyVal)
  | dec (q : ℚ)

/-- Unsigned decimal-literal core `digits[.digits]` of `Decimal(str)`. -/
def parseDecCore (s : String) : Option ℚ :=
  match strSplit s "." with
  | [ip] =>
      if ip != "" && ip.data.all Char.isDigit then some (digitsToNat ip.data : ℚ) else none
  | [ip, fp] =>
      if (ip.data ++ fp.data).all Char.isDigit && !(ip == "" && fp == "") then
        some ((digitsToNat ip.data : ℚ) + (digitsToNat fp.data : ℚ) / ((10 : ℚ) ^ fp.length))
      else none
  | _ => none

/-- `Decimal(s)` on a string: optional surrounding whitespace and sign,
then a plain decimal literal; a failed parse raises (`none`). -/
def parseDecStr (s : String) : Option ℚ :=
  let t := strTrim s
  match t.data with
  | '-' :: rest => (parseDecCore (String.mk rest)).map (fun q => -q)
  | '+' :: rest => parseDecCore (String.mk rest)
  | _ => parseDecCore t

/-- `Decimal(str(v))` for a raw value: exact for ints, parse for strings,
raises (`none`) for everything else (`str` of None/bools/containers is not
a decimal literal). -/
def pyToDec : PyVal → Option ℚ
  | .int n => some (n : ℚ)
  | .str s => parseDecStr s
  | _ => none

/-- `Decimal(str(x))` for a looked-up value; computed derived numbers
round-trip exactly. -/
def DVal.toDec : DVal → Option ℚ
  | .dec q => some q
  | .py v => pyToDec v

/-- Python numeric value of a looked-up operand for direct arithmetic
(`x - y`): derived numbers, ints and bools; anything else raises. -/
def DVal.toNum : DVal → Option ℚ
  | .dec q => some q
  | .py (.int n) => some (n : ℚ)
  | .py (.bool b) => some (if b then 1 else 0)
  | .py _ => none

/-- Python truthiness of a looked-up value. -/
def DVal.truthy : DVal → Bool
  | .dec q => q != 0
  | .py v => pyTruthy v

/-- Result of `safe_divide`: the `"N/A"` sentinel or a quotient. -/
inductive DivRes where
  | na
  | val (q : ℚ)
deriving DecidableEq

/-- `modules/context_builder.py` `safe_divide`: `"N/A"` on a missing
operand, a failed `Decimal` conversion or a zero divisor; the exact
quotient otherwise (source divides at `Decimal` precision). -/
def safe_divide (a b : Option DVal) : DivRes :=
  match a with
  | none => .na
  | some av =>
    match av.toDec with
    | none => .na
    | some aq =>
      match b with
      | none => .na
      | some bv =>
        match bv.toDec with
        | none => .na
        | some bq => if bq = 0 then .na else .val (aq / bq)

/-- The lookup helper of `calculate_derived_fields`: already-computed
derived values first, then raw input data; `none` is Python `None`
(missing key or explicit `None` value). -/
def get_val (data : List (String × PyVal)) (derived : List (String × ℚ))
    (f : String) : Option DVal :=
  match alLookup derived f with
  | some q => some (.dec q)
  | none =>
      match alLookup data f with
      | some v => if v.isNone then none else some (.py v)
      | none => none

/-- `Decimal(str(a)) - Decimal(str(b))` over two looked-up fields, both
required present; a failed conversion raises and skips the field. -/
def subFields (data : List (String × PyVal)) (derived : List (String × ℚ))
    (f1 f2 : String) : Option ℚ :=
  match get_val data derived f1, get_val data derived f2 with
  | some a, some b =>
      match a.toDec, b.toDec with
      | some x, some y => some (x - y)
      | _, _ => none
  | _, _ => none

/-- `safe_divide` over two looked-up fields, result as a percentage; the
`"N/A"` sentinel is checked before the multiplication and skips the
field. -/
def ratioField (data : List (String × PyVal)) (derived : List (String × ℚ))
    (fa fb : String) : Option ℚ :=
  match safe_divide (get_val data derived fa) (get_val data derived fb) with
  | .val q => some (q * 100)
  | .na => none

/-- The year-on-year variation `(v1 - v0) / abs(v0) * 100`, skipped when
either operand is missing, a conversion fails, or `abs(v0)` is zero. -/
def varField (data : List (String × PyVal)) (derived : List (String × ℚ))
    (f1 f0 : String) : Option ℚ :=
  match get_val data derived f1, get_val data derived f0 with
  | some v1, some v0 =>
      match v0.toDec with
      | some q0 =>
          if abs q0 ≠ 0 then
            match v1.toDec with
            | some q1 => some ((q1 - q0) / abs q0 * 100)
            | none => none
          else none
      | none => none
  | _, _ => none

/-- Direct difference `x1 - x0` of two looked-up fields (the `var_om` /
`var_ncp` branches), raising (skip) on non-numeric operands. -/
def diffNum (data : List (String × PyVal)) (derived : List (String × ℚ))
    (f1 f0 : String) : Option ℚ :=
  match get_val data derived f1, get_val data derived f0 with
  | some a, some b =>
      match a.toNum, b.toNum with
      | some x, some y => some (x - y)
      | _, _ => none
  | _, _ => none

/-- Sum of one numeric key over the `entidades_vinculadas` of a service:
falsy amounts are skipped; a non-dict entity or failed conversion raises
(`none`, skipping the whole aggregate field). -/
def entTotal (key : String) : List PyVal → Option ℚ
  | [] => some 0
  | e :: rest =>
      match e with
      | .dict ekvs =>
          let v := (pyLookup ekvs key).getD (.int 0)
          if pyTruthy v then
            match pyToDec v with
            | some q => (entTotal key rest).map (fun t => q + t)
            | none => none
          else entTotal key rest
      | _ => none

/-- Sum of one numeric key over all services' nested entities; a non-dict
service or a present non-list `entidades_vinculadas` raises. -/
def servTotal (key : String) : List PyVal → Option ℚ
  | [] => some 0
  | s :: rest =>
      match s with
      | .dict skvs =>
          (match pyLookup skvs "entidades_vinculadas" with
           | some (.list es) =>
              match entTotal key es with
              | some q => (servTotal key rest).map (fun t => q + t)
              | none => none
           | some _ => none
           | none =>
              -- `.get` default []: nothing to add for this service
              servTotal key rest)
      | _ => none

/-- An aggregate derivation (`total_ingreso_oov` / `total_gasto_oov`):
a missing `servicios_vinculados` defaults to the empty list (total 0);
a present non-list raises during iteration and skips the field. -/
def aggTotal (data : List (String × PyVal)) (key : String) : Option ℚ :=
  match alLookup data "servicios_vinculados" with
  | none => some 0
  | some (.list xs) => servTotal key xs
  | some _ => none

/-- The per-field branch of `calculate_derived_fields`: the computed value
to store, or `none` when the field is skipped (missing operands, a raised
exception, or an `"N/A"` ratio).  Only the ids listed in the fixed
calculation groups are reachable, and each carries its special-case
operand mapping from the source. -/
def calcField (data : List (String × PyVal)) (derived : List (String × ℚ)) :
    String → Option ℚ
  | "anyo_ejercicio" =>
      (match alLookup data "fecha_fin_fiscal" with
       | some (.str s) =>
          (match pyParseInt ((strSplit s "-").headD "") with
           | some n => some (n : ℚ)
           | none => none)
       | _ => none)
  | "anyo_ejercicio_ant" =>
      (match get_val data derived "anyo_ejercicio" with
       | some dv => if dv.truthy then (dv.toNum).map (fun q => q - 1) else none
       | none => none)
  | "cost_1" => subFields data derived "cifra_1" "ebit_1"
  | "cost_0" => subFields data derived "cifra_0" "ebit_0"
  | "om_1" => ratioField data derived "ebit_1" "cifra_1"
  | "om_0" => ratioField data derived "ebit_0" "cifra_0"
  | "ncp_1" => ratioField data derived "ebit_1" "cost_1"
  | "ncp_0" => ratioField data derived "ebit_0" "cost_0"
  | "var_cifra" => varField data derived "cifra_1" "cifra_0"
  | "var_cost" => varField data derived "cost_1" "cost_0"
  | "var_ebit" => varField data derived "ebit_1" "ebit_0"
  | "var_resfin" => varField data derived "resultado_fin_1" "resultado_fin_0"
  | "var_ebt" => varField data derived "ebt_1" "ebt_0"
  | "var_resnet" => varField data derived "resultado_net_1" "resultado_net_0"
  | "var_om" => diffNum data derived "om_1" "om_0"
  | "var_ncp" => diffNum data derived "ncp_1" "ncp_0"
  | "total_ingreso_oov" => aggTotal data "ingreso_entidad"
  | "total_gasto_oov" => aggTotal data "gasto_entidad"
  | "peso_oov_sobre_incn" => ratioField data derived "total_ingreso_oov" "cifra_1"
  | "peso_oov_sobre_costes" => ratioField data derived "total_gasto_oov" "cost_1"
  | _ => none

/-- The fixed, ordered calculation groups of `calculate_derived_fields`. -/
def calculationGroups : List (List String) :=
  [["anyo_ejercicio", "anyo_ejercicio_ant"],
   ["cost_1", "cost_0"],
   ["om_1", "om_0", "ncp_1", "ncp_0"],
   ["var_cifra", "var_cost", "var_ebit", "var_resfin", "var_ebt", "var_resnet",
    "var_om", "var_ncp"],
   ["total_ingreso_oov", "total_gasto_oov"],
   ["peso_oov_sobre_incn", "peso_oov_sobre_costes"]]

/-- `modules/context_builder.py` `calculate_derived_fields`: walk the
groups in order, compute every field declared in `derived_defs` (its
declared ids; the `formula` metadata is read but unused by the source),
and store each successful result under its field id. -/
def calculate_derived_fields (data : List (String × PyVal))
    (derived_defs : List String) : List (String × ℚ) :=
  calculationGroups.foldl
    (fun derived group =>
      group.foldl
        (fun derived field_id =>
          if derived_defs.contains field_id then
            match calcField data derived field_id with
            | some q => alInsert derived field_id q
            | none => derived
          else derived)
        derived)
    []

/-- Two strings with equal character data are equal. -/
lemma strData_inj {a b : String} (h : a.data = b.data) : a = b := by
  cases a; cases b; simp only at h; rw [h]

/-- String append is left-cancellative. -/
lemma strAppend_left_inj (a : String) {b c : String} (h : a ++ b = a ++ c) : b = c := by
  have hd : a.data ++ b.data = a.data ++ c.data := congrArg String.data h
  exact strData_inj (List.append_cancel_left hd)

/-- A `text:`-prefixed visibility key never coincides with a
`table:`-prefixed one. -/
lemma textNeTable (k t : String) : ("text:" ++ k) ≠ ("table:" ++ t) := by
  intro h
  have h1 : ('t' :: 'e' :: 'x' :: 't' :: ':' :: k.data)
      = ('t' :: 'a' :: 'b' :: 'l' :: 'e' :: ':' :: t.data) := congrArg String.data h
  simp at h1

/-- Reading back an association-list write: the written key sees the new
value, every other key is untouched. -/
lemma alLookup_insert {α : Type} (d : List (String × α)) (k k' : String) (v : α) :
    alLookup (alInsert d k v) k' = if k' = k then some v else alLookup d k' := by
  induction d with
  | nil =>
      by_cases h : k' = k
      · subst h; simp [alInsert, alLookup, List.find?]
      · simp [alInsert, alLookup, List.find?,
              beq_eq_false_iff_ne.mpr (fun e => h e.symm), h]
  | cons kv rest ih =>
      obtain ⟨k0, v0⟩ := kv
      by_cases h0 : k0 = k
      · subst h0
        by_cases h : k' = k0
        · subst h; simp [alInsert, alLookup, List.find?]
        · simp [alInsert, alLookup, List.find?,
                beq_eq_false_iff_ne.mpr (fun e => h e.symm), h]
      · by_cases h : k' = k0
        · subst h
          simp [alInsert, alLookup, List.find?,
                beq_eq_false_iff_ne.mpr h0, h0]
        · simp only [alInsert, alLookup, List.find?,
                beq_eq_false_iff_ne.mpr h0,
                beq_eq_false_iff_ne.mpr (fun e => h e.symm)]
          simpa [alLookup] using ih

/-- The conditional-visibility pass leaves untouched every visibility key
that is not `tag ++ k2` for one of its definition keys `k2`. -/
lemma condPass_preserve (tag : String) (defs : List (String × Option String))
    (data : List (String × PyVal)) (vis : List (String × Bool)) (K : String)
    (h : ∀ k2 ∈ defs.map Prod.fst, K ≠ tag ++ k2) :
    alLookup (condPass tag defs data vis) K = alLookup vis K := by
  induction defs generalizing vis with
  | nil => rfl
  | cons kv rest ih =>
      obtain ⟨k0, c0⟩ := kv
      have hK0 : K ≠ tag ++ k0 := h k0 (by simp)
      have hrest : ∀ k2 ∈ rest.map Prod.fst, K ≠ tag ++ k2 :=
        fun k2 hk2 => h k2 (by simp [hk2])
      cases c0 with
      | none => simpa [condPass] using ih vis hrest
      | some s =>
          by_cases hs : s = ""
          · simpa [condPass, hs] using ih vis hrest
          · have hstep : condPass tag ((k0, some s) :: rest) data vis
                = condPass tag rest data
                    (alInsert vis (tag ++ k0) (_evaluate_simple_condition s (.dict data))) := by
              simp [condPass, hs]
            rw [hstep, ih _ hrest, alLookup_insert]
            simp [hK0]

/-- The conditional-visibility pass writes, for every definition key with
a truthy condition string, the simple evaluator's verdict at the
tag-prefixed visibility key (keys unique as in a Python dict). -/
lemma condPass_lookup (tag : String) (defs : List (String × Option String))
    (data : List (String × PyVal)) (vis : List (String × Bool)) (k s : String)
    (hnd : (defs.map Prod.fst).Nodup)
    (hk : alLookup defs k = some (some s)) (hs : s ≠ "") :
    alLookup (condPass tag defs data vis) (tag ++ k) =
      some (_evaluate_simple_condition s (.dict data)) := by
  induction defs generalizing vis with
  | nil => simp [alLookup] at hk
  | cons kv rest ih =>
      obtain ⟨k0, c0⟩ := kv
      have hnd1 : (k0 :: rest.map Prod.fst).Nodup := by simpa using hnd
      by_cases h0 : k0 = k
      · subst h0
        have hc0 : c0 = some s := by
          simpa [alLookup, List.find?] using hk
        subst hc0
        have hnotin : k0 ∉ rest.map Prod.fst := (List.nodup_cons.mp hnd1).1
        have hpres : ∀ k2 ∈ rest.map Prod.fst, (tag ++ k0) ≠ tag ++ k2 := by
          intro k2 hk2 he
          exact hnotin ((strAppend_left_inj tag he) ▸ hk2)
        have hstep : condPass tag ((k0, some s) :: rest) data vis
            = condPass tag rest data
                (alInsert vis (tag ++ k0) (_evaluate_simple_condition s (.dict data))) := by
          simp [condPass, hs]
        rw [hstep, condPass_preserve tag rest data _ _ hpres, alLookup_insert]
        simp
      · have hk' : alLookup rest k = some (some s) := by
          simpa [alLookup, List.find?, beq_eq_false_iff_ne.mpr h0] using hk
        have hnd' : (rest.map Prod.fst).Nodup := (List.nodup_cons.mp hnd1).2
        cases c0 with
        | none => simpa [condPass] using ih vis hnd' hk'
        | some s0 =>
            by_cases hs0 : s0 = ""
            · simpa [condPass, hs0] using ih vis hnd' hk'
            · have hstep : condPass tag ((k0, some s0) :: rest) data vis
                  = condPass tag rest data
                      (alInsert vis (tag ++ k0) (_evaluate_simple_condition s0 (.dict data))) := by
                simp [condPass, hs0]
              rw [hstep]
              exact ih _ hnd' hk'

/-- A successful `evaluate_all_rules` run produces exactly the
conditional-visibility update of some rule-pass visibility map. -/
lemma evaluate_all_rules_ok {eng : RuleEngine} {data : List (String × PyVal)}
    {vis : List (String × Bool)} {traces : List EvaluationTrace}
    (h : evaluate_all_rules eng data = .ok (vis, traces)) :
    ∃ vis0, vis = _update_conditional_visibility eng vis0 data := by
  unfold evaluate_all_rules at h
  cases hp : processDecisions eng.rules data eng.decisions [] [] with
  | error e => rw [hp] at h; simp [Bind.bind, Except.bind] at h
  | ok p =>
      obtain ⟨vis0, tr0⟩ := p
      rw [hp] at h
      simp [Bind.bind, Except.bind, pure, Except.pure] at h
      exact ⟨vis0, h.1.symm⟩

/-- The `for_each` loop succeeds exactly when some list item's condition
evaluates to true in its merged per-item context; items whose evaluation
errors (or is false) are passed over. -/
lemma forEachLoop_iff (cond : Cond) (data : List (String × PyVal)) (items : List PyVal) :
    forEachLoop cond data items = true ↔
      ∃ it ∈ items, evaluate_condition cond (.dict (mergeItem data it)) 0 = .ok true := by
  induction items with
  | nil => simp [forEachLoop]
  | cons it rest ih =>
      simp only [forEachLoop]
      cases he : evaluate_condition cond (.dict (mergeItem data it)) 0 with
      | ok b =>
          cases b with
          | true => simp [he]
          | false => simp [ih, he]
      | error e => simp [ih, he]

/-- The `for_each` loop as a `List.any` over the merged per-item
contexts. -/
lemma forEachLoop_eq_any (cond : Cond) (data : List (String × PyVal)) (items : List PyVal) :
    forEachLoop cond data items = items.any (fun it =>
      match evaluate_condition cond (.dict (mergeItem data it)) 0 with
      | .ok true => true
      | _ => false) := by
  induction items with
  | nil => rfl
  | cons it rest ih =>
      simp only [forEachLoop, List.any_cons]
      cases he : evaluate_condition cond (.dict (mergeItem data it)) 0 with
      | ok b => cases b <;> simp [ih]
      | error e => simp [ih]

/-- C1: for every condition dict whose lower-cased `operator` is not one of
the 19 allowlisted operator strings — including a condition with no
`operator` key, whose operator reads back as `""` — and for every data
mapping, `evaluate_condition` raises (returns an error) rather than
returning a boolean. -/
theorem claim_C1 (c : Cond) (data : PyVal)
    (h : is_operator_allowed (strLower c.operator) = false) :
    ∃ e, evaluate_condition c data 0 = .error e := by
  obtain ⟨op, fld, v, vs, inner, conds⟩ := c
  simp only [Cond.operator] at h
  refine ⟨opErrMsg (strLower op), ?_⟩
  rw [evaluate_condition.eq_def]
  simp [MAX_NESTING_DEPTH, h]

/-- C1 witness: the operator `"eval"` (not allowlisted) raises on concrete
data, and a condition with no operator key (operator `""`) raises too. -/
theorem claim_C1_inst :
    ∃ e, evaluate_condition (.mk "eval" "x" (.str "code") [] none [])
      (.dict [("x", .int 1)]) 0 = .error e :=
  claim_C1 (.mk "eval" "x" (.str "code") [] none []) (.dict [("x", .int 1)]) (by decide)

/-- The concrete rule configuration of the C2 counterexample: one decision
with one rule whose condition uses the disallowed operator `"eval"`. -/
def engC2cex : RuleEngine :=
  { rules := [("r1", { rule_id := some "r1", name := none,
                       condition := .mk "eval" "x" (.str "code") [] none [],
                       action := emptyAction, for_each := none, source_block_ids := [] })],
    decisions := [("d1", { name := none, rules := ["r1"] })],
    texts := [], tables := [] }

/-- C2 counterexample: a rule whose condition holds a disallowed operator
(a DSL-integrity error) does NOT abort `evaluate_all_rules`; the run
returns normally with that rule recorded as `condition_met = false`. -/
theorem claim_C2_cex :
    evaluate_all_rules engC2cex [] =
      .ok ([], [⟨"d1", "d1", [⟨"r1", "r1", false, "", [], []⟩]⟩]) := rfl

/-- C2 (amended): a DSL error raised while evaluating a non-`for_each`
rule's condition is caught inside `_evaluate_rule` and recorded as
`condition_met = false`; it never propagates. -/
theorem claim_C2 (rule : Rule) (data : List (String × PyVal)) (e : String)
    (hfe : rule.for_each = none)
    (herr : evaluate_condition rule.condition (.dict data) 0 = .error e) :
    ∃ hit, _evaluate_rule rule data = .ok hit ∧ hit.condition_met = false := by
  refine ⟨RuleHit.mk (rule.rule_id.getD "unknown")
      (rule.name.getD (rule.rule_id.getD "unknown")) false rule.action.type
      rule.action.includes rule.source_block_ids, ?_, rfl⟩
  simp [_evaluate_rule, hfe, herr]

/-- C2 witness: concrete rule with operator `"eval"`, evaluated without
error to a `condition_met = false` hit. -/
theorem claim_C2_inst :
    ∃ hit, _evaluate_rule
        { rule_id := some "r1", name := none,
          condition := .mk "eval" "x" (.str "code") [] none [],
          action := emptyAction, for_each := none, source_block_ids := [] } [] = .ok hit ∧
      hit.condition_met = false :=
  claim_C2 _ [] (opErrMsg "eval") rfl rfl

/-- The fully nested `and` tree of depth 4 (the shape of the repository's
own max-depth test). -/
def deep4Cond : Cond :=
  .mk "and" "" .none [] none
    [.mk "and" "" .none [] none
      [.mk "and" "" .none [] none
        [.mk "and" "" .none [] none
          [.mk "equals" "x" (.int 1) [] none []]]]]

/-- The fully nested `and` tree of depth 3. -/
def deep3Cond : Cond :=
  .mk "and" "" .none [] none
    [.mk "and" "" .none [] none
      [.mk "and" "" .none [] none
        [.mk "equals" "x" (.int 1) [] none []]]]

/-- C3 counterexample: `validate_rule_depth` does not raise on the
depth-4 tree; it returns the computed depth 4 as a plain integer (the
function has no exception path; its callers compare the result against
the maximum). -/
theorem claim_C3_cex : validate_rule_depth deep4Cond 0 = 4 := rfl

/-- C3 (amended): the depth-4 `and` tree raises when evaluated, while
`validate_rule_depth` returns its depth 4, which exceeds
`MAX_NESTING_DEPTH = 3`, instead of raising; the depth-3 tree evaluates
without error and validates to 3, within the bound; and the evaluation
guard is the explicit depth counter, raising whenever it exceeds 3. -/
theorem claim_C3 :
    (∃ e, evaluate_condition deep4Cond (.dict []) 0 = .error e) ∧
    validate_rule_depth deep4Cond 0 = 4 ∧
    MAX_NESTING_DEPTH < validate_rule_depth deep4Cond 0 ∧
    evaluate_condition deep3Cond (.dict [("x", .int 1)]) 0 = .ok true ∧
    validate_rule_depth deep3Cond 0 = 3 ∧
    ¬ MAX_NESTING_DEPTH < validate_rule_depth deep3Cond 0 ∧
    (∀ (c : Cond) (data : PyVal) (depth : Nat), depth > MAX_NESTING_DEPTH →
      evaluate_condition c data depth = .error depthErrMsg) := by
  refine ⟨⟨depthErrMsg, rfl⟩, rfl, by decide, rfl, rfl, by decide, ?_⟩
  intro c data depth h
  obtain ⟨op, fld, v, vs, inner, conds⟩ := c
  rw [evaluate_condition.eq_def]
  simp [h]

/-- C3 witness: at depth 4 the guard fires on any condition, here a
concrete `equals` leaf. -/
theorem claim_C3_inst :
    evaluate_condition (.mk "equals" "x" (.int 1) [] none []) (.dict []) 4
      = .error depthErrMsg :=
  claim_C3.2.2.2.2.2.2 (.mk "equals" "x" (.int 1) [] none []) (.dict []) 4 (by decide)

/-- C4: after the rule-driven pass of `evaluate_all_rules`, every
text-block and every table definition declaring a (truthy) inline
condition string has its `text:`/`table:` visibility key overwritten with
the simple-condition evaluator's result — whatever the rule pass set —
and the simple evaluator returns true (visible) whenever the condition
string cannot be parsed (contains no `"=="`). -/
theorem claim_C4 :
    (∀ (eng : RuleEngine) (data : List (String × PyVal)) (vis : List (String × Bool))
        (traces : List EvaluationTrace) (k s : String),
        (eng.texts.map Prod.fst).Nodup →
        evaluate_all_rules eng data = .ok (vis, traces) →
        alLookup eng.texts k = some (some s) → s ≠ "" →
        alLookup vis ("text:" ++ k) = some (_evaluate_simple_condition s (.dict data))) ∧
    (∀ (eng : RuleEngine) (data : List (String × PyVal)) (vis : List (String × Bool))
        (traces : List EvaluationTrace) (k s : String),
        (eng.tables.map Prod.fst).Nodup →
        evaluate_all_rules eng data = .ok (vis, traces) →
        alLookup eng.tables k = some (some s) → s ≠ "" →
        alLookup vis ("table:" ++ k) = some (_evaluate_simple_condition s (.dict data))) ∧
    (∀ (s : String) (data : PyVal), (strSplit s "==").length = 1 →
        _evaluate_simple_condition s data = true) := by
  refine ⟨?_, ?_, ?_⟩
  · intro eng data vis traces k s hnd hok hkk hs
    obtain ⟨vis0, hv⟩ := evaluate_all_rules_ok hok
    subst hv
    unfold _update_conditional_visibility
    rw [condPass_preserve "table:" eng.tables data _ _ (fun k2 _ => textNeTable k k2)]
    exact condPass_lookup "text:" eng.texts data _ k s hnd hkk hs
  · intro eng data vis traces k s hnd hok hkk hs
    obtain ⟨vis0, hv⟩ := evaluate_all_rules_ok hok
    subst hv
    exact condPass_lookup "table:" eng.tables data _ k s hnd hkk hs
  · intro s data h
    unfold _evaluate_simple_condition
    cases hsp : strSplit s "==" with
    | nil => rfl
    | cons p0 tail =>
        cases tail with
        | nil => rfl
        | cons p1 t2 =>
            rw [hsp] at h
            simp at h

/-- The concrete rule configuration of the C4 witness: a rule that sets
`text:t1` visible, while the text block `t1` declares the inline condition
`"a == 2"`. -/
def engC4w : RuleEngine :=
  { rules := [("r1", { rule_id := some "r1", name := none,
                       condition := .mk "exists" "a" .none [] none [],
                       action := { type := "include_text", text_key := "t1",
                                   table_key := "", includes := [] },
                       for_each := none, source_block_ids := [] })],
    decisions := [("d1", { name := none, rules := ["r1"] })],
    texts := [("t1", some "a == 2")], tables := [] }

/-- C4 witness: with `a = 1` the rule is met and sets `text:t1 = true`,
yet the final map holds the inline condition's verdict (false). -/
theorem claim_C4_inst :
    alLookup [("text:t1", false)] "text:t1"
      = some (_evaluate_simple_condition "a == 2" (.dict [("a", .int 1)])) :=
  claim_C4.1 engC4w [("a", .int 1)] [("text:t1", false)]
    [⟨"d1", "d1", [⟨"r1", "r1", true, "include_text", [], []⟩]⟩]
    "t1" "a == 2" (by decide) rfl rfl (by decide)

/-- C5: a `for_each` rule over a list field is reported met exactly when
at least one list item satisfies the condition in its merged per-item
context; an item whose evaluation raises (or is false) is passed over and
iteration continues, so one malformed item never hides a later match. -/
theorem claim_C5 (rule : Rule) (f : String) (data : List (String × PyVal))
    (items : List PyVal)
    (hfe : rule.for_each = some f) (hne : f ≠ "")
    (hdata : alLookup data f = some (.list items)) :
    ∃ hit, _evaluate_rule rule data = .ok hit ∧
      (hit.condition_met = true ↔
        ∃ it ∈ items,
          evaluate_condition rule.condition (.dict (mergeItem data it)) 0 = .ok true) := by
  refine ⟨RuleHit.mk (rule.rule_id.getD "unknown")
      (rule.name.getD (rule.rule_id.getD "unknown"))
      (forEachLoop rule.condition data items) rule.action.type
      rule.action.includes rule.source_block_ids, ?_, ?_⟩
  · unfold _evaluate_rule
    rw [hfe]
    simp [beq_eq_false_iff_ne.mpr hne, pyLookup, hdata, pyIter,
          Bind.bind, Except.bind, pure, Except.pure]
  · exact forEachLoop_iff rule.condition data items

/-- C5 witness: the condition `item == 3` matches only the 3rd of 4 items
and the rule is met. -/
theorem claim_C5_inst :
    ∃ hit, _evaluate_rule
        { rule_id := some "fe", name := none,
          condition := .mk "equals" "item" (.int 3) [] none [],
          action := emptyAction, for_each := some "items", source_block_ids := [] }
        [("items", .list [.int 1, .int 2, .int 3, .int 4])] = .ok hit ∧
      (hit.condition_met = true ↔
        ∃ it ∈ [PyVal.int 1, PyVal.int 2, PyVal.int 3, PyVal.int 4],
          evaluate_condition (.mk "equals" "item" (.int 3) [] none [])
            (.dict (mergeItem [("items", .list [.int 1, .int 2, .int 3, .int 4])] it)) 0
            = .ok true) :=
  claim_C5 _ "items" _ _ rfl (by decide) rfl

/-- C10: the per-item `for_each` context is the shallow merge
`{**data, "servicio": item, "item": item}`: the engine evaluates the
condition against exactly that merge; in it, `"servicio"` and `"item"`
are bound to the current item (overriding same-named top-level entries),
every other key reads as in `data`, and its keys are exactly `data`'s
plus those two.  The input mapping itself is a pure value here, so rule
evaluation never mutates it. -/
theorem claim_C10 :
    (∀ (rule : Rule) (f : String) (data : List (String × PyVal)) (items : List PyVal),
        rule.for_each = some f → f ≠ "" → alLookup data f = some (.list items) →
        ∃ hit, _evaluate_rule rule data = .ok hit ∧
          hit.condition_met = items.any (fun it =>
            match evaluate_condition rule.condition (.dict (mergeItem data it)) 0 with
            | .ok true => true
            | _ => false)) ∧
    (∀ (data : List (String × PyVal)) (it : PyVal),
        alLookup (mergeItem data it) "servicio" = some it ∧
        alLookup (mergeItem data it) "item" = some it) ∧
    (∀ (data : List (String × PyVal)) (it : PyVal) (k : String),
        k ≠ "servicio" → k ≠ "item" →
        alLookup (mergeItem data it) k = alLookup data k) ∧
    (∀ (data : List (String × PyVal)) (it : PyVal) (k : String),
        (alLookup (mergeItem data it) k).isSome ↔
          (k = "servicio" ∨ k = "item" ∨ (alLookup data k).isSome)) := by
  refine ⟨?_, ?_, ?_, ?_⟩
  · intro rule f data items hfe hne hdata
    refine ⟨RuleHit.mk (rule.rule_id.getD "unknown")
        (rule.name.getD (rule.rule_id.getD "unknown"))
        (forEachLoop rule.condition data items) rule.action.type
        rule.action.includes rule.source_block_ids, ?_, ?_⟩
    · unfold _evaluate_rule
      rw [hfe]
      simp [beq_eq_false_iff_ne.mpr hne, pyLookup, hdata, pyIter,
            Bind.bind, Except.bind, pure, Except.pure]
    · exact forEachLoop_eq_any rule.condition data items
  · intro data it
    constructor
    · rw [mergeItem, alLookup_insert, alLookup_insert]
      simp
    · rw [mergeItem, alLookup_insert]
      simp
  · intro data it k h1 h2
    rw [mergeItem, alLookup_insert, alLookup_insert]
    simp [h1, h2]
  · intro data it k
    rw [mergeItem, alLookup_insert, alLookup_insert]
    by_cases h1 : k = "item" <;> by_cases h2 : k = "servicio" <;> simp [h1, h2]

/-- C10 witness: a key other than the two injected ones reads through the
merge unchanged. -/
theorem claim_C10_inst :
    alLookup (mergeItem [("other", .int 5)] (.int 9)) "other"
      = alLookup [("other", .int 5)] "other" :=
  claim_C10.2.2.1 [("other", .int 5)] (.int 9) "other" (by decide) (by decide)

/-- All twenty field ids of the fixed calculation groups, as a
`derived_defs` declaring every derived field. -/
def derivedDefsAll : List String :=
  ["anyo_ejercicio", "anyo_ejercicio_ant", "cost_1", "cost_0", "om_1", "om_0",
   "ncp_1", "ncp_0", "var_cifra", "var_cost", "var_ebit", "var_resfin", "var_ebt",
   "var_resnet", "var_om", "var_ncp", "total_ingreso_oov", "total_gasto_oov",
   "peso_oov_sobre_incn", "peso_oov_sobre_costes"]

set_option maxHeartbeats 1000000 in
/-- C6: `safe_divide` yields the `"N/A"` sentinel (never a number, and no
exception) on an absent or zero divisor, its callers check that sentinel
before multiplying; concretely, with `cifra_1 = 0` and `om_1` declared in
`derived_defs`, `om_1` is absent from the result mapping — skipped, not
`inf`, `NaN` or the sentinel — while sibling fields still compute
(`cost_1` is present). -/
theorem claim_C6 :
    (∀ a : Option DVal, safe_divide a none = .na) ∧
    (∀ (a : Option DVal) (bv : DVal), bv.toDec = some 0 → safe_divide a (some bv) = .na) ∧
    alLookup (calculate_derived_fields [("cifra_1", .int 0), ("ebit_1", .int 7)]
      derivedDefsAll) "om_1" = none ∧
    alLookup (calculate_derived_fields [("cifra_1", .int 0), ("ebit_1", .int 7)]
      derivedDefsAll) "cost_1" = some (-7) := by
  refine ⟨?_, ?_, ?_, ?_⟩
  · intro a
    cases a with
    | none => rfl
    | some av => cases hd : av.toDec <;> simp [safe_divide, hd]
  · intro a bv h
    cases a with
    | none => rfl
    | some av => cases hd : av.toDec <;> simp [safe_divide, hd, h]
  · simp [calculate_derived_fields, calculationGroups, calcField, derivedDefsAll,
          ratioField, subFields, diffNum, varField, aggTotal, safe_divide, get_val,
          alLookup, alInsert, pyToDec, DVal.toDec, DVal.toNum, DVal.truthy,
          pyTruthy, PyVal.isNone]
  · simp [calculate_derived_fields, calculationGroups, calcField, derivedDefsAll,
          ratioField, subFields, diffNum, varField, aggTotal, safe_divide, get_val,
          alLookup, alInsert, pyToDec, DVal.toDec, DVal.toNum, DVal.truthy,
          pyTruthy, PyVal.isNone]

/-- C6 witness: the sentinel at a zero divisor and at a missing one. -/
theorem claim_C6_inst :
    safe_divide (some (.dec 3)) (some (.dec 0)) = .na ∧
    safe_divide (some (.dec 3)) none = .na :=
  ⟨claim_C6.2.1 (some (.dec 3)) (.dec 0) rfl, claim_C6.1 (some (.dec 3))⟩

/-- One compliance row's error presence equals its bad-row predicate. -/
lemma complianceRowError_isSome (data : List (String × PyVal))
    (fd : List (String × List (String × PyVal))) (family : String) (i : Nat) :
    (complianceRowError data fd family i).isSome = complianceRowBad data family i := by
  by_cases h : complianceRowBad data family i <;> simp [complianceRowError, h]

/-- C7: `validate_compliance_comments` reports a hard error — never a
warning — for exactly the compliance rows valued `"no"`/`"parcial"` with
an empty paired comment: its error count is the number of bad rows among
`cumplido_local_1..14`, plus the bad rows among `cumplido_mast_1..17`
only when `master_file == 1`; concretely, `cumplido_local_1 = "no"` with
an empty comment yields exactly one error naming that field's label, and
with a non-empty comment zero errors. -/
theorem claim_C7 :
    (∀ (data : List (String × PyVal)) (fd : List (String × List (String × PyVal))),
        (validate_compliance_comments data fd).warnings = [] ∧
        (validate_compliance_comments data fd).info = []) ∧
    (∀ (data : List (String × PyVal)) (fd : List (String × List (String × PyVal))),
        (validate_compliance_comments data fd).errors.length =
          (List.range' 1 14).countP (fun i => complianceRowBad data "local" i) +
          (if pyEq ((alLookup data "master_file").getD .none) (.int 1) then
            (List.range' 1 17).countP (fun i => complianceRowBad data "mast" i)
          else 0)) ∧
    (validate_compliance_comments
        [("cumplido_local_1", .str "no"), ("texto_cumplido_local_1", .str "")] []).errors =
      ["Comment required for \x27cumplido_local_1\x27 when compliance is \x27no\x27"] ∧
    (validate_compliance_comments
        [("cumplido_local_1", .str "no"), ("texto_cumplido_local_1", .str "explained")]
        []).errors = [] := by
  refine ⟨fun data fd => ⟨rfl, rfl⟩, ?_, by decide, by decide⟩
  intro data fd
  unfold validate_compliance_comments
  simp only [List.length_append, List.length_filterMap_eq_countP]
  rw [List.countP_congr (fun i _ => by rw [complianceRowError_isSome data fd "local" i])]
  congr 1
  by_cases hm : pyEq ((alLookup data "master_file").getD .none) (.int 1)
  · simp only [hm, if_true, List.length_filterMap_eq_countP]
    exact List.countP_congr (fun i _ => by rw [complianceRowError_isSome data fd "mast" i])
  · simp [hm]

/-- C8 counterexample: `not_contains` on a non-string field value returns
TRUE, not the false the claim states for every string operator. -/
theorem claim_C8_cex :
    evaluate_condition (.mk "not_contains" "x" (.str "a") [] none [])
      (.dict [("x", .int 5)]) 0 = .ok true := rfl

/-- C8 (amended): when the resolved field value is not a string, no
coercion is attempted and the string operators return constants —
`contains`, `starts_with` and `ends_with` return false, while
`not_contains` returns true. -/
theorem claim_C8 (c : Cond) (data : PyVal)
    (hstr : (get_value data c.field).isStr = false) :
    (strLower c.operator = "contains" → evaluate_condition c data 0 = .ok false) ∧
    (strLower c.operator = "starts_with" → evaluate_condition c data 0 = .ok false) ∧
    (strLower c.operator = "ends_with" → evaluate_condition c data 0 = .ok false) ∧
    (strLower c.operator = "not_contains" → evaluate_condition c data 0 = .ok true) := by
  obtain ⟨op, fld, v, vs, inner, conds⟩ := c
  simp only [Cond.operator, Cond.field] at hstr ⊢
  refine ⟨?_, ?_, ?_, ?_⟩ <;> intro hop <;>
  · rw [evaluate_condition.eq_def]
    simp only [hop]
    cases hg : get_value data fld <;>
      simp_all [PyVal.isStr, MAX_NESTING_DEPTH, is_operator_allowed, ALLOWED_OPERATORS]

/-- C8 witness: an integer field value under `contains` gives false and
under `not_contains` gives true. -/
theorem claim_C8_inst :
    evaluate_condition (.mk "contains" "x" (.str "a") [] none [])
      (.dict [("x", .int 5)]) 0 = .ok false ∧
    evaluate_condition (.mk "not_contains" "x" (.str "a") [] none [])
      (.dict [("x", .int 5)]) 0 = .ok true :=
  ⟨(claim_C8 (.mk "contains" "x" (.str "a") [] none [])
      (.dict [("x", .int 5)]) (by decide)).1 rfl,
   (claim_C8 (.mk "not_contains" "x" (.str "a") [] none [])
      (.dict [("x", .int 5)]) (by decide)).2.2.2 rfl⟩

/-- C9: whenever the dot-path field resolves to `None` — as a missing
key, a non-traversable intermediate, or an out-of-range list index all
do — the comparison operators `gt`, `gte`, `lt`, `lte` return false and
never raise. -/
theorem claim_C9 :
    (∀ (c : Cond) (data : PyVal), get_value data c.field = .none →
      ((strLower c.operator = "gt" → evaluate_condition c data 0 = .ok false) ∧
       (strLower c.operator = "gte" → evaluate_condition c data 0 = .ok false) ∧
       (strLower c.operator = "lt" → evaluate_condition c data 0 = .ok false) ∧
       (strLower c.operator = "lte" → evaluate_condition c data 0 = .ok false))) ∧
    get_value (.dict [("a", .int 1)]) "b" = .none ∧
    get_value (.dict [("a", .int 1)]) "a.b" = .none ∧
    get_value (.dict [("xs", .list [.int 7])]) "xs.5" = .none := by
  refine ⟨?_, rfl, rfl, rfl⟩
  intro c data hnone
  obtain ⟨op, fld, v, vs, inner, conds⟩ := c
  simp only [Cond.operator, Cond.field] at hnone ⊢
  refine ⟨?_, ?_, ?_, ?_⟩ <;> intro hop <;>
  · rw [evaluate_condition.eq_def]
    simp only [hop]
    simp [hnone, PyVal.isNone, MAX_NESTING_DEPTH, is_operator_allowed, ALLOWED_OPERATORS]

/-- C9 witness: `gt` against the missing field `"b"` is false. -/
theorem claim_C9_inst :
    evaluate_condition (.mk "gt" "b" (.int 0) [] none [])
      (.dict [("a", .int 1)]) 0 = .ok false :=
  (claim_C9.1 (.mk "gt" "b" (.int 0) [] none []) (.dict [("a", .int 1)]) rfl).1 rfl
